import Mathlib

/-!
Verification of the korppi collaborative-editing core: a shallow embedding of
the conflict detector (`src-tauri/src/conflict_detector.rs`), the conflict
persistence layer (`src-tauri/src/conflict_store.rs`), the patch-review
workflow (`src-tauri/src/patch_log.rs`, `src-tauri/src/db_utils.rs`) and the
cross-document patch transplantation loop (`src-tauri/src/patch_log.rs`),
together with proofs of the specified properties.

Machine integers: Rust `usize` offsets are modelled as `Nat`, `i64`
timestamps as `Int` (no arithmetic in the embedded code can overflow a
64-bit value on the inputs considered, and the source does unchecked
arithmetic on them).  Rust field name `end` is rendered `end_` and the
JSON key variable `at` is rendered `at_` because both are reserved words
in Lean.
-/

namespace Korppi

/-- Model of `serde_json::Value` restricted to the shapes the detector
inspects (floating-point payloads are not modelled; `as_u64` on a float
returns `None` in serde and such payloads never reach the parsed fields). -/
inductive Json where
  | null : Json
  | bool : Bool → Json
  | num : Int → Json
  | str : String → Json
  | arr : List Json → Json
  | obj : List (String × Json) → Json

/-- `Value::get(key)` on an object: first field with the given key. -/
def Json.get? : Json → String → Option Json
  | .obj fields, key => (fields.find? (fun f => f.1 = key)).map (fun f => f.2)
  | _, _ => none

/-- `Value::as_str`. -/
def Json.as_str : Json → Option String
  | .str s => some s
  | _ => none

/-- `Value::as_u64`: a non-negative integer fitting in 64 bits. -/
def Json.as_u64 : Json → Option Nat
  | .num n => if 0 ≤ n ∧ n < 18446744073709551616 then some n.toNat else none
  | _ => none

/-- `Value::as_array`. -/
def Json.as_array : Json → Option (List Json)
  | .arr xs => some xs
  | _ => none

/-- `patch_log::Patch` (src/patch_log.rs lines 69-79). -/
structure Patch where
  id : Int
  timestamp : Int
  author : String
  kind : String
  data : Json
  uuid : Option String
  parent_uuid : Option String

/-- `models::TextSpan` (src/models.rs lines 65-71). -/
structure TextSpan where
  start : Nat
  end_ : Nat
  content : String
  author : String
  timestamp : Int
deriving DecidableEq

/-- `models::ConflictType` (src/models.rs lines 44-53). -/
inductive ConflictType where
  | OverlappingEdit
  | DeleteModify
  | ConcurrentInsert
  | StructuralConflict
deriving DecidableEq

/-- `models::ConflictStatus` (src/models.rs lines 56-62). -/
inductive ConflictStatus where
  | Unresolved
  | ResolvedLocal
  | ResolvedRemote
  | ResolvedMerged
  | ResolvedBoth
deriving DecidableEq

/-- `models::Conflict` (src/models.rs lines 33-41). -/
structure Conflict where
  id : String
  conflict_type : ConflictType
  base_version : TextSpan
  local_version : TextSpan
  remote_version : TextSpan
  status : ConflictStatus
  detected_at : Int
deriving DecidableEq

/-- `conflict_detector::EditType` (src/conflict_detector.rs lines 227-231). -/
inductive EditType where
  | insert
  | delete
  | replace
deriving DecidableEq

/-- `conflict_detector::EditInfo` (src/conflict_detector.rs lines 217-224). -/
structure EditInfo where
  start : Nat
  end_ : Nat
  content : String
  author : String
  timestamp : Int
  edit_type : EditType
deriving DecidableEq

/-- `ConflictDetector::group_by_time_window`, inner loop
(src/conflict_detector.rs lines 50-66).  `cur` is `current_group`,
`anchor` is `group_start`, `acc` is `groups`. -/
def gbtwLoop (w : Int) : List Patch → List Patch → Int → List (List Patch) → List (List Patch)
  | [], cur, _, acc => if cur.isEmpty then acc else acc ++ [cur]
  | p :: rest, cur, anchor, acc =>
      if p.timestamp - anchor ≤ w then
        gbtwLoop w rest (cur ++ [p]) p.timestamp acc
      else
        gbtwLoop w rest [p] p.timestamp (if cur.isEmpty then acc else acc ++ [cur])

/-- `ConflictDetector::group_by_time_window` (src/conflict_detector.rs
lines 41-69); `w` is the detector's `concurrency_window`. -/
def group_by_time_window (w : Int) (patches : List Patch) : List (List Patch) :=
  match patches with
  | [] => []
  | p :: rest => gbtwLoop w rest [p] p.timestamp []

/-- `ConflictDetector::parse_single_operation` (src/conflict_detector.rs
lines 113-165). -/
def parse_single_operation (op : Json) (patch : Patch) : Option EditInfo := do
  let kind ← (op.get? "kind").bind Json.as_str
  match kind with
  | "insert_text" => do
      let at_ ← (op.get? "at").bind Json.as_u64
      let text ← (op.get? "insertedText").bind Json.as_str
      pure { start := at_, end_ := at_, content := text,
             author := patch.author, timestamp := patch.timestamp,
             edit_type := .insert }
  | "delete_text" => do
      let range ← (op.get? "range").bind Json.as_array
      let s ← (range[0]?).bind Json.as_u64
      let e ← (range[1]?).bind Json.as_u64
      let deleted := (((op.get? "deletedText").bind Json.as_str)).getD ""
      pure { start := s, end_ := e, content := deleted,
             author := patch.author, timestamp := patch.timestamp,
             edit_type := .delete }
  | "replace_text" => do
      let range ← (op.get? "range").bind Json.as_array
      let s ← (range[0]?).bind Json.as_u64
      let e ← (range[1]?).bind Json.as_u64
      let inserted := (((op.get? "insertedText").bind Json.as_str)).getD ""
      pure { start := s, end_ := e, content := inserted,
             author := patch.author, timestamp := patch.timestamp,
             edit_type := .replace }
  | _ => none

/-- `ConflictDetector::extract_all_edit_infos` (src/conflict_detector.rs
lines 97-111). -/
def extract_all_edit_infos (patch : Patch) : List EditInfo :=
  match patch.data.as_array with
  | some ops => ops.filterMap (fun op => parse_single_operation op patch)
  | none => []

/-- `ConflictDetector::ranges_overlap` (src/conflict_detector.rs
lines 167-176). -/
def ranges_overlap (a b : EditInfo) : Bool :=
  if a.edit_type = EditType.insert ∧ b.edit_type = EditType.insert then
    decide (a.start = b.start)
  else
    decide (a.start < b.end_ ∧ b.start < a.end_)

/-- `ConflictDetector::create_conflict` (src/conflict_detector.rs
lines 178-213).  The wall-clock reading `chrono::Utc::now()` used for
`detected_at` is passed in explicitly as `nowMs`. -/
def create_conflict (local_ remote : EditInfo) (nowMs : Int) : Conflict :=
  { id := toString local_.timestamp ++ "-" ++ toString remote.timestamp
            ++ "-" ++ toString local_.start,
    conflict_type :=
      match local_.edit_type, remote.edit_type with
      | .insert, .insert => .ConcurrentInsert
      | .delete, .replace => .DeleteModify
      | .replace, .delete => .DeleteModify
      | _, _ => .OverlappingEdit,
    base_version :=
      { start := min local_.start remote.start,
        end_ := max local_.end_ remote.end_,
        content := "", author := "base", timestamp := 0 },
    local_version :=
      { start := local_.start, end_ := local_.end_, content := local_.content,
        author := local_.author, timestamp := local_.timestamp },
    remote_version :=
      { start := remote.start, end_ := remote.end_, content := remote.content,
        author := remote.author, timestamp := remote.timestamp },
    status := .Unresolved,
    detected_at := nowMs }

/-- The all-pairs loop of `ConflictDetector::find_overlapping_edits`
(src/conflict_detector.rs lines 81-92): each edit against every later
edit, skipping same-author pairs. -/
def pairLoop (nowMs : Int) : List EditInfo → List Conflict
  | [] => []
  | a :: rest =>
      (rest.filterMap (fun b =>
        if a.author = b.author then none
        else if ranges_overlap a b then some (create_conflict a b nowMs)
        else none))
      ++ pairLoop nowMs rest

/-- `ConflictDetector::find_overlapping_edits` (src/conflict_detector.rs
lines 71-95). -/
def find_overlapping_edits (nowMs : Int) (patches : List Patch) : List Conflict :=
  pairLoop nowMs (patches.flatMap extract_all_edit_infos)

/-- The group loop of `ConflictDetector::detect_conflicts`
(src/conflict_detector.rs lines 24-36): groups with fewer than two
distinct authors are skipped. -/
def detectLoop (nowMs : Int) : List (List Patch) → List Conflict
  | [] => []
  | g :: gs =>
      if ((g.map (fun p => p.author)).dedup).length < 2 then detectLoop nowMs gs
      else find_overlapping_edits nowMs g ++ detectLoop nowMs gs

/-- `ConflictDetector::detect_conflicts` (src/conflict_detector.rs
lines 18-39). -/
def detect_conflicts (w : Int) (nowMs : Int) (patches : List Patch) : List Conflict :=
  detectLoop nowMs (group_by_time_window w patches)

/-- One row of the `conflicts_v2` table (src/conflict_store.rs
lines 21-46). -/
structure ConflictRow where
  id : String
  conflict_type : String
  base_content : String
  local_content : String
  local_author : String
  local_start : Nat
  local_end : Nat
  local_ts : Int
  remote_content : String
  remote_author : String
  remote_start : Nat
  remote_end : Nat
  remote_ts : Int
  base_start : Nat
  base_end : Nat
  status : String
  resolved_content : Option String
  detected_at : Int
  resolved_at : Option Int
deriving DecidableEq

/-- The `format!("{:?}", conflict_type)` string used by `store_conflict`. -/
def ConflictType.debugStr : ConflictType → String
  | .OverlappingEdit => "OverlappingEdit"
  | .DeleteModify => "DeleteModify"
  | .ConcurrentInsert => "ConcurrentInsert"
  | .StructuralConflict => "StructuralConflict"

/-- The `format!("{:?}", status)` string used by `store_conflict`. -/
def ConflictStatus.debugStr : ConflictStatus → String
  | .Unresolved => "Unresolved"
  | .ResolvedLocal => "ResolvedLocal"
  | .ResolvedRemote => "ResolvedRemote"
  | .ResolvedMerged => "ResolvedMerged"
  | .ResolvedBoth => "ResolvedBoth"

/-- The row inserted by `store_conflict` (src/conflict_store.rs
lines 56-93): `resolved_content` and `resolved_at` are not among the
inserted columns and default to NULL. -/
def rowOfConflict (c : Conflict) : ConflictRow :=
  { id := c.id,
    conflict_type := c.conflict_type.debugStr,
    base_content := c.base_version.content,
    local_content := c.local_version.content,
    local_author := c.local_version.author,
    local_start := c.local_version.start,
    local_end := c.local_version.end_,
    local_ts := c.local_version.timestamp,
    remote_content := c.remote_version.content,
    remote_author := c.remote_version.author,
    remote_start := c.remote_version.start,
    remote_end := c.remote_version.end_,
    remote_ts := c.remote_version.timestamp,
    base_start := c.base_version.start,
    base_end := c.base_version.end_,
    status := c.status.debugStr,
    resolved_content := none,
    detected_at := c.detected_at,
    resolved_at := none }

/-- `conflict_store::store_conflict` (src/conflict_store.rs lines 56-93):
`INSERT OR IGNORE` keyed by the `id` primary key. -/
def store_conflict (tbl : List ConflictRow) (c : Conflict) : List ConflictRow :=
  if tbl.any (fun r => r.id = c.id) then tbl else tbl ++ [rowOfConflict c]

/-- `conflict_store::parse_conflict_type` (src/conflict_store.rs
lines 171-179). -/
def parse_conflict_type (s : String) : ConflictType :=
  match s with
  | "OverlappingEdit" => .OverlappingEdit
  | "DeleteModify" => .DeleteModify
  | "ConcurrentInsert" => .ConcurrentInsert
  | "StructuralConflict" => .StructuralConflict
  | _ => .OverlappingEdit

/-- The `Conflict` reconstructed from a row by `get_unresolved_conflicts`
(src/conflict_store.rs lines 112-139): the base span's author and
timestamp are not persisted and come back as `"base"` and `0`. -/
def conflictOfRow (r : ConflictRow) : Conflict :=
  { id := r.id,
    conflict_type := parse_conflict_type r.conflict_type,
    base_version :=
      { start := r.base_start, end_ := r.base_end, content := r.base_content,
        author := "base", timestamp := 0 },
    local_version :=
      { start := r.local_start, end_ := r.local_end, content := r.local_content,
        author := r.local_author, timestamp := r.local_ts },
    remote_version :=
      { start := r.remote_start, end_ := r.remote_end, content := r.remote_content,
        author := r.remote_author, timestamp := r.remote_ts },
    status := .Unresolved,
    detected_at := r.detected_at }

/-- `conflict_store::get_unresolved_conflicts` (src/conflict_store.rs
lines 95-146): `WHERE status = 'Unresolved' ORDER BY detected_at DESC`
(the SQL ordering on ties is unspecified; it is modelled by insertion
sort on the descending-timestamp relation). -/
def get_unresolved_conflicts (tbl : List ConflictRow) : List Conflict :=
  ((tbl.filter (fun r => r.status = "Unresolved")).insertionSort
      (fun a b => b.detected_at ≤ a.detected_at)).map conflictOfRow

/-- One row of the `patch_reviews` table (src/db_utils.rs lines 34-41),
primary key `(patch_uuid, reviewer_id)`. -/
structure ReviewRow where
  patch_uuid : String
  reviewer_id : String
  decision : String
  reviewer_name : Option String
  reviewed_at : Int
deriving DecidableEq

/-- `patch_log::record_patch_review` (src/patch_log.rs lines 551-578):
validates the decision, then `INSERT OR REPLACE` keyed by the primary key
`(patch_uuid, reviewer_id)` (the conflicting row, if any, is deleted and
the new row inserted).  The `SystemTime::now()` reading for `reviewed_at`
is passed in as `nowMs`.  Returns the error message, if any, together
with the resulting table (on error the table is the untouched input). -/
def record_patch_review (tbl : List ReviewRow) (patch_uuid reviewer_id decision : String)
    (reviewer_name : Option String) (nowMs : Int) : Option String × List ReviewRow :=
  if decision ≠ "accepted" ∧ decision ≠ "rejected" then
    (some ("Invalid decision: " ++ decision ++ ". Must be accepted or rejected"), tbl)
  else
    (none,
      tbl.filter (fun r => ¬(r.patch_uuid = patch_uuid ∧ r.reviewer_id = reviewer_id))
        ++ [{ patch_uuid := patch_uuid, reviewer_id := reviewer_id,
              decision := decision, reviewer_name := reviewer_name,
              reviewed_at := nowMs }])

/-- Number of review rows carrying a given `(patch_uuid, reviewer_id)` key. -/
def keyCount (tbl : List ReviewRow) (u r : String) : Nat :=
  tbl.countP (fun row => row.patch_uuid = u ∧ row.reviewer_id = r)

/-- The `patch_reviews` primary key invariant: at most one row per
`(patch_uuid, reviewer_id)` pair. -/
def atMostOnePerKey (tbl : List ReviewRow) : Prop :=
  ∀ u r, keyCount tbl u r ≤ 1

/-- A row of the source `patches` table as read by
`import_patches_from_document` (src/patch_log.rs lines 281-308): the
`data` column is kept as its TEXT form. -/
structure SourcePatchRow where
  id : Int
  timestamp : Int
  author : String
  kind : String
  data : String
  uuid : Option String
  parent_uuid : Option String
deriving DecidableEq

/-- A row of the target `patches` table (src/db_utils.rs lines 16-24). -/
structure TargetPatchRow where
  id : Int
  timestamp : Int
  author : String
  kind : String
  data : String
  uuid : Option String
  parent_uuid : Option String
deriving DecidableEq

/-- A row of a `snapshots` table (src/db_utils.rs lines 26-32), without
its own autoincrement id, which the import loop never reads. -/
structure SnapshotRow where
  timestamp : Int
  patch_id : Int
  state : List Nat
deriving DecidableEq

/-- The target history database state touched by the patch-import loop:
`nextId` models the `AUTOINCREMENT` counter feeding
`last_insert_rowid()`. -/
structure TargetDb where
  nextId : Int
  patches : List TargetPatchRow
  snapshots : List SnapshotRow
deriving DecidableEq

/-- The per-patch snapshot lookup `SELECT state FROM snapshots WHERE
patch_id = ?1` building `snapshot_map` (src/patch_log.rs lines 310-325). -/
def lookupSnapshot (snaps : List SnapshotRow) (pid : Int) : Option (List Nat) :=
  (snaps.find? (fun s => s.patch_id = pid)).map (fun s => s.state)

/-- The insert branch of the import loop (src/patch_log.rs lines 368-397):
a fresh local id is assigned and any source snapshot for the patch is
re-linked to it. -/
def insertImported (srcSnaps : List SnapshotRow) (sp : SourcePatchRow) (pu : String)
    (db : TargetDb) : TargetDb :=
  { nextId := db.nextId + 1,
    patches := db.patches ++
      [{ id := db.nextId, timestamp := sp.timestamp, author := sp.author,
         kind := sp.kind, data := sp.data, uuid := some pu,
         parent_uuid := sp.parent_uuid }],
    snapshots :=
      match lookupSnapshot srcSnaps sp.id with
      | some st => db.snapshots ++ [{ timestamp := sp.timestamp, patch_id := db.nextId, state := st }]
      | none => db.snapshots }

/-- The dedup-by-uuid loop of `import_patches_from_document`
(src/patch_log.rs lines 344-397).  `Uuid::new_v4()` is modelled by the
supply `fresh`, consumed at index `k` whenever a source patch has no
uuid. -/
def importSaveLoop (fresh : Nat → String) (srcSnaps : List SnapshotRow) :
    List SourcePatchRow → Nat → TargetDb → TargetDb
  | [], _, db => db
  | sp :: rest, k, db =>
      let pu := match sp.uuid with
        | some u => u
        | none => fresh k
      let k2 := match sp.uuid with
        | some _ => k
        | none => k + 1
      if db.patches.any (fun p => p.uuid = some pu) then
        importSaveLoop fresh srcSnaps rest k2 db
      else
        importSaveLoop fresh srcSnaps rest k2 (insertImported srcSnaps sp pu db)

/-- The patch/snapshot part of `patch_log::import_patches_from_document`
(src/patch_log.rs lines 245-410): `SELECT ... WHERE kind = 'Save' ORDER
BY timestamp ASC` (ties unspecified in SQL; modelled by insertion sort),
then the dedup-by-uuid insert loop.  Review and comment merging
(`import_reviews`, `import_comments`) touch other tables and are not
modelled here. -/
def import_patches_from_document (fresh : Nat → String) (source : List SourcePatchRow)
    (srcSnaps : List SnapshotRow) (db : TargetDb) : TargetDb :=
  importSaveLoop fresh srcSnaps
    ((source.filter (fun p => p.kind = "Save")).insertionSort
      (fun a b => a.timestamp ≤ b.timestamp))
    0 db

/-- Does a conflict row carry the given id. -/
def rowHasId (s : String) (r : ConflictRow) : Bool := r.id = s

/-- Does a reconstructed conflict carry the given id. -/
def conflictHasId (s : String) (x : Conflict) : Bool := x.id = s

/-- Does a review row carry the given `(patch_uuid, reviewer_id)` key. -/
def reviewKeyIs (u r : String) (row : ReviewRow) : Bool :=
  row.patch_uuid = u && row.reviewer_id = r

/-! Concrete fixtures and projections used in example conjuncts, witnesses
and counterexamples. -/

/-- A checkpoint patch with no edit payload, for the time-window example. -/
def savePatch (i ts : Int) : Patch :=
  { id := i, timestamp := ts, author := "A", kind := "Save", data := Json.null,
    uuid := none, parent_uuid := none }

/-- A `delete_text` operation payload. -/
def opDelete (s e : Nat) (txt : String) : Json :=
  Json.obj [("kind", Json.str "delete_text"),
            ("range", Json.arr [Json.num s, Json.num e]),
            ("deletedText", Json.str txt)]

/-- A `replace_text` operation payload. -/
def opReplace (s e : Nat) (txt : String) : Json :=
  Json.obj [("kind", Json.str "replace_text"),
            ("range", Json.arr [Json.num s, Json.num e]),
            ("insertedText", Json.str txt)]

/-- An `insert_text` operation payload. -/
def opInsert (p : Nat) (txt : String) : Json :=
  Json.obj [("kind", Json.str "insert_text"),
            ("at", Json.num p),
            ("insertedText", Json.str txt)]

/-- Two patches 100 ms apart: author A deletes [0,10) and [2,10), author B
replaces [5,6). -/
def psAB : List Patch :=
  [ { id := 1, timestamp := 100, author := "A", kind := "semantic_group",
      data := Json.arr [opDelete 0 10 "x", opDelete 2 10 "y"],
      uuid := none, parent_uuid := none },
    { id := 2, timestamp := 200, author := "B", kind := "semantic_group",
      data := Json.arr [opReplace 5 6 "z"],
      uuid := none, parent_uuid := none } ]

/-- The (local-timestamp, remote-timestamp, overlap-start) triple of a
conflict, where the overlap of two spans starts at the larger of their
start offsets. -/
def c9triple (c : Conflict) : Int × Int × Nat :=
  (c.local_version.timestamp, c.remote_version.timestamp,
   max c.local_version.start c.remote_version.start)

/-- A conflict with its `detected_at` field cleared. -/
def stripDetectedAt (c : Conflict) : Conflict := { c with detected_at := 0 }

/-- A conflict with its base span's author and timestamp reset to the
values `get_unresolved_conflicts` reconstructs. -/
def baseReset (c : Conflict) : Conflict :=
  { c with base_version := { c.base_version with author := "base", timestamp := 0 } }

/-- An already-resolved conflict (status `ResolvedLocal`). -/
def resolvedConflict : Conflict :=
  { id := "res-1", conflict_type := .OverlappingEdit,
    base_version := { start := 0, end_ := 5, content := "b", author := "base", timestamp := 1000 },
    local_version := { start := 0, end_ := 6, content := "l", author := "Alice", timestamp := 2000 },
    remote_version := { start := 0, end_ := 7, content := "r", author := "Bob", timestamp := 3000 },
    status := .ResolvedLocal, detected_at := 4000 }

/-- An unresolved conflict whose base span carries a non-default author
and timestamp (the shape of the fixture in the repository's own
`conflict_store` tests). -/
def unresolvedOddBase : Conflict :=
  { id := "odd-1", conflict_type := .OverlappingEdit,
    base_version := { start := 0, end_ := 5, content := "b", author := "base", timestamp := 1000 },
    local_version := { start := 0, end_ := 6, content := "l", author := "Alice", timestamp := 2000 },
    remote_version := { start := 0, end_ := 7, content := "r", author := "Bob", timestamp := 3000 },
    status := .Unresolved, detected_at := 4000 }

/-- The first conflict `detect_conflicts` emits on `psAB`. -/
def conflictAB : Conflict :=
  { id := "100-200-0", conflict_type := .DeleteModify,
    base_version := { start := 0, end_ := 10, content := "", author := "base", timestamp := 0 },
    local_version := { start := 0, end_ := 10, content := "x", author := "A", timestamp := 100 },
    remote_version := { start := 5, end_ := 6, content := "z", author := "B", timestamp := 200 },
    status := .Unresolved, detected_at := 0 }

/-- A one-patch source history whose Save patch has no uuid. -/
def srcNoUuid : List SourcePatchRow :=
  [{ id := 1, timestamp := 0, author := "A", kind := "Save", data := "d",
     uuid := none, parent_uuid := none }]

/-- A one-patch source history whose Save patch carries a uuid. -/
def srcWithUuid : List SourcePatchRow :=
  [{ id := 1, timestamp := 0, author := "A", kind := "Save", data := "d",
     uuid := some "u-1", parent_uuid := none }]

/-- An empty target history. -/
def emptyDb : TargetDb := { nextId := 1, patches := [], snapshots := [] }

/-- One run of the random uuid generator. -/
def freshU1 : Nat → String := fun _ => "u1"

/-- A second, independent run of the random uuid generator. -/
def freshU2 : Nat → String := fun _ => "u2"

/-- An insert edit at offset 5 by author A. -/
def eInsA : EditInfo :=
  { start := 5, end_ := 5, content := "w", author := "A", timestamp := 100,
    edit_type := .insert }

/-- A delete edit over [0,5) by author B. -/
def eDelB : EditInfo :=
  { start := 0, end_ := 5, content := "", author := "B", timestamp := 200,
    edit_type := .delete }

/-- A delete edit over [0,5) by author A. -/
def eDelA05 : EditInfo :=
  { start := 0, end_ := 5, content := "", author := "A", timestamp := 100,
    edit_type := .delete }

/-- A replace edit over [5,10) by author B. -/
def eRepB510 : EditInfo :=
  { start := 5, end_ := 10, content := "q", author := "B", timestamp := 200,
    edit_type := .replace }

/-- Two patches are within the window when the later one's timestamp is
at most `w` past the earlier one's. -/
def withinWindow (w : Int) (p q : Patch) : Prop := q.timestamp - p.timestamp ≤ w

/-- Between two consecutive groups, the first patch of the later group is
more than `w` past the last patch of the earlier group. -/
def windowGap (w : Int) (g h : List Patch) : Prop :=
  ∀ p q, g.getLast? = some p → h.head? = some q → w < q.timestamp - p.timestamp

/-! Helper lemmas. -/

/-- The grouping loop only appends to its accumulator. -/
theorem gbtwLoop_acc (w : Int) (input : List Patch) :
    ∀ (cur : List Patch) (anchor : Int) (acc : List (List Patch)),
    gbtwLoop w input cur anchor acc = acc ++ gbtwLoop w input cur anchor [] := by
  induction input with
  | nil =>
      intro cur anchor acc
      simp only [gbtwLoop]
      split <;> simp
  | cons p rest ih =>
      intro cur anchor acc
      simp only [gbtwLoop]
      split
      · exact ih _ _ _
      · rw [ih _ _ (if cur.isEmpty then acc else acc ++ [cur]),
            ih _ _ (if cur.isEmpty then [] else [] ++ [cur])]
        split <;> simp

/-- Characterization of the grouping loop started on a nonempty current
group whose last element's timestamp is the anchor: the output extends
the current group, concatenates back to the input, keeps every group
nonempty and chained within the window, and separates consecutive groups
by more than the window. -/
theorem gbtwLoop_spec (w : Int) (input : List Patch) :
    ∀ (cur : List Patch) (anchor : Int),
      cur ≠ [] →
      (∀ l, cur.getLast? = some l → l.timestamp = anchor) →
      cur.Chain' (withinWindow w) →
      ∃ extra gs,
        gbtwLoop w input cur anchor [] = (cur ++ extra) :: gs
        ∧ ((cur ++ extra) :: gs).flatten = cur ++ input
        ∧ (∀ g ∈ (cur ++ extra) :: gs, g ≠ [] ∧ g.Chain' (withinWindow w))
        ∧ ((cur ++ extra) :: gs).Chain' (windowGap w) := by
  induction input with
  | nil =>
      intro cur anchor hne _ hch
      have hemp : cur.isEmpty = false := by
        cases cur
        · exact absurd rfl hne
        · rfl
      refine ⟨[], [], ?_, ?_, ?_, ?_⟩
      · simp [gbtwLoop, hemp]
      · simp
      · intro g hg
        simp only [List.append_nil, List.mem_singleton] at hg
        subst hg
        exact ⟨hne, hch⟩
      · exact List.chain'_singleton _
  | cons p rest ih =>
      intro cur anchor hne hanchor hch
      by_cases hle : p.timestamp - anchor ≤ w
      · have hne' : cur ++ [p] ≠ [] := by simp
        have hanchor' : ∀ l, (cur ++ [p]).getLast? = some l → l.timestamp = p.timestamp := by
          intro l hl
          rw [List.getLast?_concat] at hl
          cases hl
          rfl
        have hch' : (cur ++ [p]).Chain' (withinWindow w) := by
          refine List.Chain'.append hch (List.chain'_singleton p) ?_
          intro x hx y hy
          simp only [List.head?_cons, Option.mem_def, Option.some.injEq] at hy
          subst hy
          have := hanchor x (Option.mem_def.mp hx)
          unfold withinWindow
          omega
        obtain ⟨extra, gs, heq, hflat, hgs, hchain⟩ :=
          ih (cur ++ [p]) p.timestamp hne' hanchor' hch'
        have hcons : (cur ++ [p]) ++ extra = cur ++ (p :: extra) := by simp
        refine ⟨p :: extra, gs, ?_, ?_, ?_, ?_⟩
        · simp only [gbtwLoop, if_pos hle]
          rw [heq, hcons]
        · rw [← hcons, hflat]
          simp
        · rw [← hcons]
          exact hgs
        · rw [← hcons]
          exact hchain
      · have hgt : w < p.timestamp - anchor := by omega
        have hemp : cur.isEmpty = false := by
          cases cur
          · exact absurd rfl hne
          · rfl
        obtain ⟨extra, gs, heq, hflat, hgs, hchain⟩ :=
          ih [p] p.timestamp (by simp)
            (by
              intro l hl
              simp only [List.getLast?_singleton, Option.some.injEq] at hl
              subst hl
              rfl)
            (List.chain'_singleton p)
        refine ⟨[], (([p] ++ extra)) :: gs, ?_, ?_, ?_, ?_⟩
        · simp only [gbtwLoop, if_neg hle, hemp, Bool.false_eq_true, if_false]
          rw [gbtwLoop_acc w rest [p] p.timestamp, heq]
          simp
        · rw [List.flatten_cons, hflat]
          simp
        · intro g hg
          rcases List.mem_cons.mp hg with hg | hg
          · subst hg
            simpa using ⟨hne, hch⟩
          · exact hgs g hg
        · refine List.chain'_cons'.mpr ⟨?_, hchain⟩
          intro h hh
          simp only [List.head?_cons, Option.mem_def, Option.some.injEq] at hh
          subst hh
          intro pl q hpl hq
          simp only [List.append_nil] at hpl
          have hts := hanchor pl hpl
          simp only [List.cons_append, List.nil_append, List.head?_cons,
            Option.some.injEq] at hq
          subst hq
          omega

/-- Clearing `detected_at` on a freshly created conflict is the same as
creating it at clock reading 0. -/
theorem stripDetectedAt_create_conflict (a b : EditInfo) (n : Int) :
    stripDetectedAt (create_conflict a b n) = create_conflict a b 0 := rfl

/-- The pair loop at two different clock readings differs only in
`detected_at`. -/
theorem pairLoop_strip (n : Int) (l : List EditInfo) :
    (pairLoop n l).map stripDetectedAt = pairLoop 0 l := by
  induction l with
  | nil => rfl
  | cons a rest ih =>
      have hfun : (fun b => (if a.author = b.author then none
            else if ranges_overlap a b then some (create_conflict a b n)
            else none).map stripDetectedAt)
          = (fun b => if a.author = b.author then none
            else if ranges_overlap a b then some (create_conflict a b 0)
            else none) := by
        funext b
        by_cases h1 : a.author = b.author
        · simp [h1]
        · by_cases h2 : ranges_overlap a b <;>
            simp [h1, h2, stripDetectedAt_create_conflict]
      simp only [pairLoop, List.map_append, ih, List.map_filterMap, hfun]

/-- `find_overlapping_edits` at two clock readings differs only in
`detected_at`. -/
theorem find_overlapping_edits_strip (n : Int) (g : List Patch) :
    (find_overlapping_edits n g).map stripDetectedAt = find_overlapping_edits 0 g :=
  pairLoop_strip n _

/-- The detector's group loop at two clock readings differs only in
`detected_at`. -/
theorem detectLoop_strip (n : Int) (gs : List (List Patch)) :
    (detectLoop n gs).map stripDetectedAt = detectLoop 0 gs := by
  induction gs with
  | nil => rfl
  | cons g rest ih =>
      by_cases h : ((g.map (fun p => p.author)).dedup).length < 2 <;>
        simp [detectLoop, h, ih, List.map_append, find_overlapping_edits_strip]

/-- C8 (counterexample): `detect` is not a pure function of the patch
list alone — on the concrete input `psAB`, two runs at different wall
clock readings return different conflict sequences, because
`create_conflict` stamps `detected_at` from `chrono::Utc::now()`. -/
theorem c8_counterexample : detect_conflicts 5000 0 psAB ≠ detect_conflicts 5000 1 psAB := by
  decide

/-- C8 (amended): for every patch list, two calls of `detect` return
conflict sequences equal in every field except `detected_at` (same ids,
spans, statuses and conflict types); `detected_at` alone is read from
the ambient clock. -/
theorem c8_detect_deterministic_except_clock (w n1 n2 : Int) (patches : List Patch) :
    (detect_conflicts w n1 patches).map stripDetectedAt
      = (detect_conflicts w n2 patches).map stripDetectedAt := by
  simp only [detect_conflicts, detectLoop_strip]

/-- C9 (counterexample): on `psAB` the detector emits two conflicts with
identical (local-timestamp, remote-timestamp, overlap-start) triples —
both `(100, 200, 5)` — yet distinct ids, because the id's third
component is the local edit's start offset, not the overlap start. -/
theorem c9_counterexample :
    (detect_conflicts 5000 0 psAB).map c9triple = [(100, 200, 5), (100, 200, 5)]
    ∧ (detect_conflicts 5000 0 psAB).map Conflict.id = ["100-200-0", "100-200-2"]
    ∧ ("100-200-0" : String) ≠ "100-200-2" := by
  refine ⟨by rfl, by rfl, by decide⟩

/-- C9 (amended): a `Conflict.id` is stable for a given
(local-timestamp, remote-timestamp, local-edit-start) triple: any two
conflicts created from edits agreeing on those three values receive the
same id, whatever their other fields and whatever the clock reads, so
re-detection of the same conflict re-inserts under the same id. -/
theorem c9_conflict_id_stable (l r l2 r2 : EditInfo) (n n2 : Int)
    (h1 : l.timestamp = l2.timestamp) (h2 : r.timestamp = r2.timestamp)
    (h3 : l.start = l2.start) :
    (create_conflict l r n).id = (create_conflict l2 r2 n2).id := by
  simp [create_conflict, h1, h2, h3]

/-- Witness for `c9_conflict_id_stable` at concrete edits. -/
theorem c9_conflict_id_stable_witness :
    eDelA05.timestamp = eDelA05.timestamp ∧ eRepB510.timestamp = eDelB.timestamp
    ∧ eDelA05.start = eDelA05.start
    ∧ (create_conflict eDelA05 eRepB510 7).id = (create_conflict eDelA05 eDelB 9).id :=
  ⟨rfl, rfl, rfl, c9_conflict_id_stable eDelA05 eRepB510 eDelA05 eDelB 7 9 rfl rfl rfl⟩

/-- C2: for a pair of edits from different authors inside one time
group, the pair loop reports a conflict exactly when `ranges_overlap`
holds; `ranges_overlap` holds iff both edits are inserts targeting the
same position, or a delete/replace pair (either order) with `[start,end)`
ranges overlapping under `a.start < b.end ∧ b.start < a.end`, or any
other combination with ranges overlapping under the same test; and the
emitted conflict is classified ConcurrentInsert / DeleteModify /
OverlappingEdit accordingly.  Touching half-open ranges fail the strict
inequalities and so never conflict. -/
theorem c2_pair_classification (a b : EditInfo) (nowMs : Int) (hab : a.author ≠ b.author) :
    pairLoop nowMs [a, b]
        = (if ranges_overlap a b then [create_conflict a b nowMs] else [])
    ∧ (ranges_overlap a b = true ↔
        (a.edit_type = EditType.insert ∧ b.edit_type = EditType.insert ∧ a.start = b.start)
        ∨ (((a.edit_type = EditType.delete ∧ b.edit_type = EditType.replace)
            ∨ (a.edit_type = EditType.replace ∧ b.edit_type = EditType.delete))
           ∧ a.start < b.end_ ∧ b.start < a.end_)
        ∨ (¬(a.edit_type = EditType.insert ∧ b.edit_type = EditType.insert)
           ∧ ¬((a.edit_type = EditType.delete ∧ b.edit_type = EditType.replace)
              ∨ (a.edit_type = EditType.replace ∧ b.edit_type = EditType.delete))
           ∧ a.start < b.end_ ∧ b.start < a.end_))
    ∧ (a.edit_type = EditType.insert → b.edit_type = EditType.insert →
        (create_conflict a b nowMs).conflict_type = ConflictType.ConcurrentInsert)
    ∧ ((a.edit_type = EditType.delete ∧ b.edit_type = EditType.replace)
        ∨ (a.edit_type = EditType.replace ∧ b.edit_type = EditType.delete) →
        (create_conflict a b nowMs).conflict_type = ConflictType.DeleteModify)
    ∧ (¬(a.edit_type = EditType.insert ∧ b.edit_type = EditType.insert) →
       ¬((a.edit_type = EditType.delete ∧ b.edit_type = EditType.replace)
          ∨ (a.edit_type = EditType.replace ∧ b.edit_type = EditType.delete)) →
        (create_conflict a b nowMs).conflict_type = ConflictType.OverlappingEdit) := by
  refine ⟨?_, ?_, ?_, ?_, ?_⟩
  · by_cases h : ranges_overlap a b <;>
      simp [pairLoop, List.filterMap_cons, hab, h]
  · cases ha : a.edit_type <;> cases hb : b.edit_type <;>
      simp [ranges_overlap, ha, hb]
  · intro ha hb
    simp [create_conflict, ha, hb]
  · rintro (⟨ha, hb⟩ | ⟨ha, hb⟩) <;> simp [create_conflict, ha, hb]
  · intro hii hdr
    cases ha : a.edit_type <;> cases hb : b.edit_type <;>
      simp [ha, hb] at hii hdr ⊢ <;> simp [create_conflict, ha, hb]

/-- Witness for `c2_pair_classification` at the touching-ranges pair
delete `[0,5)` by A against replace `[5,10)` by B: the iff specializes to
a false overlap condition, so no conflict is reported. -/
theorem c2_pair_classification_witness :
    eDelA05.author ≠ eRepB510.author
    ∧ pairLoop 0 [eDelA05, eRepB510]
        = (if ranges_overlap eDelA05 eRepB510 then [create_conflict eDelA05 eRepB510 0] else [])
    ∧ ranges_overlap eDelA05 eRepB510 = false :=
  ⟨by decide, (c2_pair_classification eDelA05 eRepB510 0 (by decide)).1, by decide⟩

/-- C6: `record_patch_review` with a decision other than `accepted` or
`rejected` fails with an error message and leaves the review table
unchanged. -/
theorem c6_invalid_decision_rejected (tbl : List ReviewRow) (u r : String)
    (name : Option String) (nowMs : Int) (d : String)
    (h1 : d ≠ "accepted") (h2 : d ≠ "rejected") :
    (record_patch_review tbl u r d name nowMs).1.isSome
    ∧ (record_patch_review tbl u r d name nowMs).2 = tbl := by
  simp [record_patch_review, h1, h2]

/-- Witness for `c6_invalid_decision_rejected` at decision `"maybe"`. -/
theorem c6_invalid_decision_rejected_witness :
    ("maybe" : String) ≠ "accepted" ∧ ("maybe" : String) ≠ "rejected"
    ∧ (record_patch_review [] "pu" "rev" "maybe" none 0).1.isSome
    ∧ (record_patch_review [] "pu" "rev" "maybe" none 0).2 = [] := by
  refine ⟨by decide, by decide, ?_, ?_⟩
  · exact (c6_invalid_decision_rejected [] "pu" "rev" none 0 "maybe"
      (by decide) (by decide)).1
  · exact (c6_invalid_decision_rejected [] "pu" "rev" none 0 "maybe"
      (by decide) (by decide)).2

/-- Every edit the parser can produce with type `Insert` has an empty
span: `parse_single_operation` builds insert edits with `start = end_ =
at`, and the delete/replace branches never carry type `Insert`. -/
theorem parse_insert_shape (op : Json) (pt : Patch) (e : EditInfo)
    (hp : parse_single_operation op pt = some e)
    (he : e.edit_type = EditType.insert) :
    e.end_ = e.start := by
  unfold parse_single_operation at hp
  rcases hk : (op.get? "kind").bind Json.as_str with _ | kind
  · rw [hk] at hp
    simp at hp
  · rw [hk] at hp
    simp only [Option.bind_eq_bind, Option.some_bind] at hp
    split at hp
    · rcases hp' : (op.get? "at").bind Json.as_u64 with _ | av
      · rw [hp'] at hp
        simp at hp
      · rw [hp'] at hp
        rcases ht' : (op.get? "insertedText").bind Json.as_str with _ | tv
        · rw [ht'] at hp
          simp at hp
        · rw [ht'] at hp
          simp only [Option.bind_eq_bind, Option.some_bind, Option.pure_def,
            Option.some.injEq] at hp
          subst hp
          rfl
    · rcases hp' : (op.get? "range").bind Json.as_array with _ | rv
      · rw [hp'] at hp
        simp at hp
      · rw [hp'] at hp
        simp only [Option.bind_eq_bind, Option.some_bind, Option.pure_def] at hp
        rcases h0 : (rv[0]?).bind Json.as_u64 with _ | s0
        · rw [h0] at hp
          simp at hp
        · rw [h0] at hp
          rcases h1 : (rv[1]?).bind Json.as_u64 with _ | e0
          · rw [h1] at hp
            simp at hp
          · rw [h1] at hp
            simp only [Option.some_bind, Option.some.injEq] at hp
            subst hp
            simp at he
    · rcases hp' : (op.get? "range").bind Json.as_array with _ | rv
      · rw [hp'] at hp
        simp at hp
      · rw [hp'] at hp
        simp only [Option.bind_eq_bind, Option.some_bind, Option.pure_def] at hp
        rcases h0 : (rv[0]?).bind Json.as_u64 with _ | s0
        · rw [h0] at hp
          simp at hp
        · rw [h0] at hp
          rcases h1 : (rv[1]?).bind Json.as_u64 with _ | e0
          · rw [h1] at hp
            simp at hp
          · rw [h1] at hp
            simp only [Option.some_bind, Option.some.injEq] at hp
            subst hp
            simp at he
    · simp at hp

/-- C10: an Insert operation is represented as an empty span (its parsed
edit has `start = end` = the insertion position), and consequently for
every parser-produced Insert edit `e` at position `e.start` against a
delete or replace edit `b` over `[b.start, b.end)` by a different author
in the same time group, a conflict is reported iff `b.start < e.start ∧
e.start < b.end` (in either pairing order) — an insert exactly at a
boundary of the range never produces a conflict. -/
theorem c10_insert_empty_span_boundary (op : Json) (pt : Patch) (e b : EditInfo)
    (nowMs : Int)
    (hp : parse_single_operation op pt = some e)
    (he : e.edit_type = EditType.insert)
    (hab : e.author ≠ b.author)
    (hb : b.edit_type = EditType.delete ∨ b.edit_type = EditType.replace) :
    e.end_ = e.start
    ∧ (pairLoop nowMs [e, b] ≠ [] ↔ (b.start < e.start ∧ e.start < b.end_))
    ∧ (pairLoop nowMs [b, e] ≠ [] ↔ (b.start < e.start ∧ e.start < b.end_)) := by
  have hae : e.end_ = e.start := parse_insert_shape op pt e hp he
  have hbi : b.edit_type ≠ EditType.insert := by
    rcases hb with hb | hb <;> simp [hb]
  refine ⟨hae, ?_, ?_⟩
  · have hro : ranges_overlap e b = decide (e.start < b.end_ ∧ b.start < e.start) := by
      simp [ranges_overlap, hbi, hae]
    simp only [pairLoop, List.filterMap, hab, if_neg hab, hro]
    by_cases h : e.start < b.end_ ∧ b.start < e.start
    · simp [h]
    · simp [h]
      omega
  · have hro : ranges_overlap b e = decide (b.start < e.start ∧ e.start < b.end_) := by
      simp [ranges_overlap, hbi, hae]
    have hba : b.author ≠ e.author := fun h => hab h.symm
    simp only [pairLoop, List.filterMap, if_neg hba, hro]
    by_cases h : b.start < e.start ∧ e.start < b.end_ <;> simp [h]

/-- Witness for `c10_insert_empty_span_boundary`: the insert at 5 parsed
from `opInsert 5 "w"` against delete `[0,5)` — the insert sits exactly at
the end boundary, so the iff specializes to a false condition and no
conflict is reported. -/
theorem c10_insert_empty_span_boundary_witness :
    parse_single_operation (opInsert 5 "w") (savePatch 1 100) = some eInsA
    ∧ eInsA.edit_type = EditType.insert
    ∧ eInsA.author ≠ eDelB.author
    ∧ (eDelB.edit_type = EditType.delete ∨ eDelB.edit_type = EditType.replace)
    ∧ eInsA.end_ = eInsA.start
    ∧ (pairLoop 0 [eInsA, eDelB] ≠ [] ↔ (eDelB.start < eInsA.start ∧ eInsA.start < eDelB.end_)) := by
  refine ⟨by decide, by decide, by decide, Or.inl (by decide), ?_, ?_⟩
  · exact (c10_insert_empty_span_boundary (opInsert 5 "w") (savePatch 1 100)
      eInsA eDelB 0 (by decide) (by decide) (by decide) (Or.inl (by decide))).1
  · exact (c10_insert_empty_span_boundary (opInsert 5 "w") (savePatch 1 100)
      eInsA eDelB 0 (by decide) (by decide) (by decide) (Or.inl (by decide))).2.1

/-- C1: time-window grouping is chained/sliding: the groups concatenate
back to the input list in order, inside each (nonempty) group every
patch is within `window_ms` of the previously grouped patch (the anchor
advances on every addition), and between consecutive groups the gap
exceeds `window_ms` — together these say a patch joins the current group
iff it is within `window_ms` of the previously grouped patch.  In
particular, with `window_ms = 5000`, patches at timestamps
`[0, 4000, 8000]` form exactly one group even though `8000 - 0 > 5000`. -/
theorem c1_time_window_chaining :
    (∀ (w : Int) (patches : List Patch),
        (group_by_time_window w patches).flatten = patches
        ∧ (∀ g ∈ group_by_time_window w patches,
            g ≠ [] ∧ g.Chain' (withinWindow w))
        ∧ (group_by_time_window w patches).Chain' (windowGap w))
    ∧ group_by_time_window 5000 [savePatch 1 0, savePatch 2 4000, savePatch 3 8000]
        = [[savePatch 1 0, savePatch 2 4000, savePatch 3 8000]] := by
  constructor
  · intro w patches
    cases patches with
    | nil => simp [group_by_time_window]
    | cons p rest =>
        obtain ⟨extra, gs, heq, hflat, hgs, hchain⟩ :=
          gbtwLoop_spec w rest [p] p.timestamp (by simp)
            (by
              intro l hl
              simp only [List.getLast?_singleton, Option.some.injEq] at hl
              subst hl
              rfl)
            (List.chain'_singleton p)
        have hgb : group_by_time_window w (p :: rest) = ([p] ++ extra) :: gs := by
          rw [group_by_time_window, heq]
        refine ⟨?_, ?_, ?_⟩
        · rw [hgb, hflat]
          simp
        · rw [hgb]
          exact hgs
        · rw [hgb]
          exact hchain
  · rfl

/-- Every conflict emitted by the pair loop comes from a pair of edits
with distinct authors. -/
theorem pairLoop_mem (nowMs : Int) (l : List EditInfo) (c : Conflict)
    (hc : c ∈ pairLoop nowMs l) :
    ∃ a b, a.author ≠ b.author ∧ c = create_conflict a b nowMs := by
  induction l with
  | nil => simp [pairLoop] at hc
  | cons a rest ih =>
      simp only [pairLoop, List.mem_append] at hc
      rcases hc with hc | hc
      · rcases List.mem_filterMap.mp hc with ⟨b, _, hfb⟩
        by_cases h1 : a.author = b.author
        · simp [h1] at hfb
        · by_cases h2 : ranges_overlap a b
          · simp only [h1, if_false, h2, if_true, Option.some.injEq] at hfb
            exact ⟨a, b, h1, hfb.symm⟩
          · simp [h1, h2] at hfb
      · exact ih hc

/-- C3: two edits by the same author never produce a conflict — every
conflict `detect_conflicts` emits has distinct local and remote
authors, whatever the input patch list, the window, or the timing. -/
theorem c3_same_author_never_conflicts (w nowMs : Int) (patches : List Patch) (c : Conflict)
    (hc : c ∈ detect_conflicts w nowMs patches) :
    c.local_version.author ≠ c.remote_version.author := by
  rw [detect_conflicts] at hc
  generalize group_by_time_window w patches = gs at hc
  revert hc
  induction gs with
  | nil =>
      intro hc
      simp [detectLoop] at hc
  | cons g rest ih =>
      intro hc
      simp only [detectLoop] at hc
      by_cases h : ((g.map (fun p => p.author)).dedup).length < 2
      · rw [if_pos h] at hc
        exact ih hc
      · rw [if_neg h] at hc
        rcases List.mem_append.mp hc with hc | hc
        · obtain ⟨a, b, hab, hceq⟩ := pairLoop_mem nowMs _ c hc
          subst hceq
          simpa [create_conflict] using hab
        · exact ih hc

/-- Witness for `c3_same_author_never_conflicts` at the concrete patch
list `psAB` and its first emitted conflict. -/
theorem c3_same_author_never_conflicts_witness :
    conflictAB ∈ detect_conflicts 5000 0 psAB
    ∧ conflictAB.local_version.author ≠ conflictAB.remote_version.author :=
  ⟨by decide, c3_same_author_never_conflicts 5000 0 psAB conflictAB (by decide)⟩

/-- `parse_conflict_type` undoes the debug formatting used when storing. -/
theorem parse_conflict_type_debugStr (t : ConflictType) :
    parse_conflict_type t.debugStr = t := by
  cases t <;> rfl

/-- C4 (counterexample): conflict storage is not idempotent in the sense
claimed for every conflict c.  For the already-resolved conflict
`resolvedConflict`, after `store; store` the table holds exactly one row
with its id, yet `list_unresolved` returns it zero times (its status is
not Unresolved); for `unresolvedOddBase` (status Unresolved but a base
span carrying author "base", timestamp 1000 — the shape of the repo's
own test fixture), `list_unresolved` also returns the conflict itself
zero times, because the base author and timestamp are reconstructed as
"base"/0. -/
theorem c4_counterexample :
    ((store_conflict (store_conflict [] resolvedConflict) resolvedConflict).countP
        (rowHasId resolvedConflict.id) = 1
      ∧ (get_unresolved_conflicts
          (store_conflict (store_conflict [] resolvedConflict) resolvedConflict)).count
            resolvedConflict = 0)
    ∧ ((store_conflict (store_conflict [] unresolvedOddBase) unresolvedOddBase).countP
        (rowHasId unresolvedOddBase.id) = 1
      ∧ (get_unresolved_conflicts
          (store_conflict (store_conflict [] unresolvedOddBase) unresolvedOddBase)).count
            unresolvedOddBase = 0) := by
  refine ⟨⟨?_, ?_⟩, ?_, ?_⟩ <;> decide

/-- C4 (amended): for every conflict `c` stored twice into a table with
no prior row of its id, the table holds exactly one row with `c`'s id;
and when `c`'s status is Unresolved, `list_unresolved` returns exactly
one conflict with `c`'s id, namely `c` with its base span's author and
timestamp reset to the reconstructed values `"base"` and `0`. -/
theorem c4_store_idempotent (tbl : List ConflictRow) (c : Conflict)
    (hfresh : ∀ r ∈ tbl, r.id ≠ c.id)
    (hst : c.status = ConflictStatus.Unresolved) :
    (store_conflict (store_conflict tbl c) c).countP (rowHasId c.id) = 1
    ∧ (get_unresolved_conflicts (store_conflict (store_conflict tbl c) c)).countP
        (conflictHasId c.id) = 1
    ∧ baseReset c ∈ get_unresolved_conflicts (store_conflict (store_conflict tbl c) c) := by
  have hany1 : tbl.any (fun r => decide (r.id = c.id)) = false := by
    rw [List.any_eq_false]
    intro r hr
    simpa using hfresh r hr
  have h1 : store_conflict tbl c = tbl ++ [rowOfConflict c] := by
    simp [store_conflict, hany1]
  have hT : store_conflict (store_conflict tbl c) c = tbl ++ [rowOfConflict c] := by
    rw [h1]
    have hany2 : (tbl ++ [rowOfConflict c]).any (fun r => decide (r.id = c.id)) = true := by
      rw [List.any_eq_true]
      exact ⟨rowOfConflict c, by simp, by simp [rowOfConflict]⟩
    simp [store_conflict, hany2]
  have hz : tbl.countP (rowHasId c.id) = 0 := by
    rw [List.countP_eq_zero]
    intro r hr
    simp [rowHasId, hfresh r hr]
  have hstat : (rowOfConflict c).status = "Unresolved" := by
    simp [rowOfConflict, hst, ConflictStatus.debugStr]
  refine ⟨?_, ?_, ?_⟩
  · rw [hT, List.countP_append, hz]
    simp [rowHasId, rowOfConflict]
  · rw [hT]
    unfold get_unresolved_conflicts
    rw [List.countP_map]
    rw [(List.perm_insertionSort _ _).countP_eq]
    have hcomp : ((conflictHasId c.id) ∘ conflictOfRow) = rowHasId c.id := by
      funext r
      simp [conflictHasId, conflictOfRow, rowHasId]
    rw [hcomp, List.countP_filter, List.countP_append]
    have hz2 : tbl.countP (fun a => rowHasId c.id a && decide (a.status = "Unresolved")) = 0 := by
      rw [List.countP_eq_zero]
      intro r hr
      simp [rowHasId, hfresh r hr]
    rw [hz2]
    simp [rowHasId, rowOfConflict, hstat, hst, ConflictStatus.debugStr]
  · rw [hT]
    unfold get_unresolved_conflicts
    have hroundtrip : conflictOfRow (rowOfConflict c) = baseReset c := by
      simp [conflictOfRow, rowOfConflict, baseReset, parse_conflict_type_debugStr, hst]
    have hmemF : rowOfConflict c ∈
        (tbl ++ [rowOfConflict c]).filter (fun r => decide (r.status = "Unresolved")) := by
      rw [List.mem_filter]
      exact ⟨by simp, by simp [hstat]⟩
    have hmemS : rowOfConflict c ∈
        ((tbl ++ [rowOfConflict c]).filter
          (fun r => decide (r.status = "Unresolved"))).insertionSort
          (fun a b => b.detected_at ≤ a.detected_at) :=
      ((List.perm_insertionSort _ _).mem_iff).mpr hmemF
    have := List.mem_map_of_mem conflictOfRow hmemS
    rwa [hroundtrip] at this

/-- Witness for `c4_store_idempotent` at the concrete unresolved conflict
`conflictAB` and the empty table. -/
theorem c4_store_idempotent_witness :
    (store_conflict (store_conflict [] conflictAB) conflictAB).countP
        (rowHasId conflictAB.id) = 1
    ∧ (get_unresolved_conflicts (store_conflict (store_conflict [] conflictAB) conflictAB)).countP
        (conflictHasId conflictAB.id) = 1
    ∧ baseReset conflictAB ∈
        get_unresolved_conflicts (store_conflict (store_conflict [] conflictAB) conflictAB) :=
  c4_store_idempotent [] conflictAB (by simp) (by decide)

/-- C5: the review table holds at most one row per
`(patch_uuid, reviewer_id)` pair at all times — any `record_patch_review`
call preserves the invariant — and recording "rejected" then "accepted"
for one key leaves exactly one row for that key, carrying decision
"accepted". -/
theorem c5_review_upsert (tbl : List ReviewRow) (h : atMostOnePerKey tbl) :
    (∀ u r d name nowMs,
        atMostOnePerKey (record_patch_review tbl u r d name nowMs).2)
    ∧ (∀ u r name1 name2 t1 t2,
        ((record_patch_review (record_patch_review tbl u r "rejected" name1 t1).2
            u r "accepted" name2 t2).2.filter (reviewKeyIs u r))
          = [{ patch_uuid := u, reviewer_id := r, decision := "accepted",
               reviewer_name := name2, reviewed_at := t2 }]) := by
  constructor
  · intro u r d name nowMs
    unfold record_patch_review
    by_cases hval : d ≠ "accepted" ∧ d ≠ "rejected"
    · rw [if_pos hval]
      exact h
    · rw [if_neg hval]
      intro u' r'
      unfold keyCount
      rw [List.countP_append, List.countP_filter]
      by_cases hk : u' = u ∧ r' = r
      · obtain ⟨hku, hkr⟩ := hk
        subst hku
        subst hkr
        have hz : tbl.countP (fun a =>
            decide (a.patch_uuid = u' ∧ a.reviewer_id = r') &&
            decide ¬(a.patch_uuid = u' ∧ a.reviewer_id = r')) = 0 := by
          rw [List.countP_eq_zero]
          intro row hrow
          by_cases hrk : row.patch_uuid = u' ∧ row.reviewer_id = r' <;> simp [hrk]
        rw [hz]
        simp
      · have hone : ([({ patch_uuid := u, reviewer_id := r, decision := d,
                           reviewer_name := name,
                           reviewed_at := nowMs } : ReviewRow)]).countP
            (fun row => decide (row.patch_uuid = u' ∧ row.reviewer_id = r')) = 0 := by
          rw [List.countP_eq_zero]
          intro row hrow
          simp only [List.mem_singleton] at hrow
          subst hrow
          simp only [decide_eq_true_eq]
          intro hcon
          exact hk ⟨hcon.1.symm, hcon.2.symm⟩
        rw [hone, Nat.add_zero]
        calc tbl.countP (fun a =>
            decide (a.patch_uuid = u' ∧ a.reviewer_id = r') &&
            decide ¬(a.patch_uuid = u ∧ a.reviewer_id = r))
            ≤ tbl.countP (fun a => decide (a.patch_uuid = u' ∧ a.reviewer_id = r')) := by
              apply List.countP_mono_left
              intro a _ ha
              rw [Bool.and_eq_true] at ha
              exact ha.1
          _ ≤ 1 := h u' r'
  · intro u r name1 name2 t1 t2
    have hrej : (record_patch_review tbl u r "rejected" name1 t1).2
        = tbl.filter (fun row => decide ¬(row.patch_uuid = u ∧ row.reviewer_id = r))
          ++ [{ patch_uuid := u, reviewer_id := r, decision := "rejected",
                reviewer_name := name1, reviewed_at := t1 }] := by
      simp [record_patch_review]
    have hacc : (record_patch_review (record_patch_review tbl u r "rejected" name1 t1).2
        u r "accepted" name2 t2).2
        = ((record_patch_review tbl u r "rejected" name1 t1).2.filter
            (fun row => decide ¬(row.patch_uuid = u ∧ row.reviewer_id = r)))
          ++ [{ patch_uuid := u, reviewer_id := r, decision := "accepted",
                reviewer_name := name2, reviewed_at := t2 }] := by
      simp [record_patch_review]
    have hff : ∀ (l : List ReviewRow), List.filter (reviewKeyIs u r)
        (l.filter (fun row => decide ¬(row.patch_uuid = u ∧ row.reviewer_id = r))) = [] := by
      intro l
      rw [List.filter_eq_nil_iff]
      intro a ha
      rw [List.mem_filter] at ha
      have hnk := ha.2
      simp only [decide_eq_true_eq] at hnk
      simp only [reviewKeyIs, Bool.and_eq_true, decide_eq_true_eq]
      intro hcon
      exact hnk ⟨hcon.1, hcon.2⟩
    rw [hacc, hrej]
    simp only [List.filter_append]
    rw [hff]
    simp [reviewKeyIs]

/-- Witness for `c5_review_upsert`: on the empty table, rejecting then
accepting for one key leaves exactly the accepted row for that key. -/
theorem c5_review_upsert_witness :
    ((record_patch_review (record_patch_review [] "pu" "rev" "rejected" none 1).2
        "pu" "rev" "accepted" none 2).2.filter (reviewKeyIs "pu" "rev"))
      = [{ patch_uuid := "pu", reviewer_id := "rev", decision := "accepted",
           reviewer_name := none, reviewed_at := 2 }] :=
  (c5_review_upsert [] (by intro u r; simp [keyCount])).2 "pu" "rev" none none 1 2

/-- The import loop only appends to the target patch table. -/
theorem importSaveLoop_mono (fresh : Nat → String) (srcSnaps : List SnapshotRow) :
    ∀ (l : List SourcePatchRow) (k : Nat) (db : TargetDb) (row : TargetPatchRow),
      row ∈ db.patches → row ∈ (importSaveLoop fresh srcSnaps l k db).patches := by
  intro l
  induction l with
  | nil =>
      intro k db row h
      exact h
  | cons sp rest ih =>
      intro k db row h
      simp only [importSaveLoop]
      split
      · exact ih _ _ _ h
      · apply ih
        simp [insertImported]
        exact Or.inl h

/-- After the import loop runs, every processed source patch that carried
a uuid has a target row with that uuid. -/
theorem importSaveLoop_present (fresh : Nat → String) (srcSnaps : List SnapshotRow) :
    ∀ (l : List SourcePatchRow) (k : Nat) (db : TargetDb) (sp : SourcePatchRow) (u : String),
      sp ∈ l → sp.uuid = some u →
      ∃ row ∈ (importSaveLoop fresh srcSnaps l k db).patches, row.uuid = some u := by
  intro l
  induction l with
  | nil =>
      intro k db sp u h _
      simp at h
  | cons sp0 rest ih =>
      intro k db sp u hmem hu
      rcases List.mem_cons.mp hmem with rfl | hmem'
      · simp only [importSaveLoop, hu]
        split
        · next hany =>
            rw [List.any_eq_true] at hany
            obtain ⟨row, hrow, hrowu⟩ := hany
            simp only [decide_eq_true_eq] at hrowu
            exact ⟨row, importSaveLoop_mono fresh srcSnaps rest _ _ row hrow, hrowu⟩
        · next =>
            refine ⟨{ id := db.nextId, timestamp := sp.timestamp, author := sp.author,
                      kind := sp.kind, data := sp.data, uuid := some u,
                      parent_uuid := sp.parent_uuid }, ?_, rfl⟩
            apply importSaveLoop_mono
            simp [insertImported]
      · simp only [importSaveLoop]
        split
        · exact ih _ _ _ _ hmem' hu
        · exact ih _ _ _ _ hmem' hu

/-- If every processed source patch carries a uuid already present in the
target, the import loop changes nothing. -/
theorem importSaveLoop_skip_all (fresh : Nat → String) (srcSnaps : List SnapshotRow) :
    ∀ (l : List SourcePatchRow) (k : Nat) (db : TargetDb),
      (∀ sp ∈ l, ∃ u, sp.uuid = some u ∧ ∃ row ∈ db.patches, row.uuid = some u) →
      importSaveLoop fresh srcSnaps l k db = db := by
  intro l
  induction l with
  | nil =>
      intro k db _
      rfl
  | cons sp rest ih =>
      intro k db hall
      obtain ⟨u, hu, row, hrow, hrowu⟩ := hall sp (List.mem_cons_self sp rest)
      have hany : db.patches.any (fun p => decide (p.uuid = some u)) = true := by
        rw [List.any_eq_true]
        exact ⟨row, hrow, by simp [hrowu]⟩
      simp only [importSaveLoop, hu]
      rw [if_pos hany]
      exact ih _ _ (fun q hq => hall q (List.mem_cons_of_mem sp hq))

/-- C7 (counterexample): importing the same source twice is not always
idempotent.  A source whose single Save patch has no uuid gets a fresh
random uuid on each import (`Uuid::new_v4()`), so the second import does
not find the first import's uuid and inserts a duplicate: the patch
count goes from 1 to 2. -/
theorem c7_counterexample :
    (import_patches_from_document freshU1 srcNoUuid [] emptyDb).patches.length = 1
    ∧ (import_patches_from_document freshU2 srcNoUuid []
        (import_patches_from_document freshU1 srcNoUuid [] emptyDb)).patches.length = 2 := by
  refine ⟨?_, ?_⟩ <;> decide

/-- C7 (amended): provided every Save patch in the source history carries
a uuid, importing the same source history twice into any target leaves
the target state — in particular the total patch count — identical to
importing it once: on the second pass every Save patch's uuid is found
in the target and the patch is skipped entirely. -/
theorem c7_import_idempotent (source : List SourcePatchRow) (srcSnaps : List SnapshotRow)
    (db : TargetDb) (fresh1 fresh2 : Nat → String)
    (h : ∀ p ∈ source, p.kind = "Save" → p.uuid.isSome) :
    import_patches_from_document fresh2 source srcSnaps
        (import_patches_from_document fresh1 source srcSnaps db)
      = import_patches_from_document fresh1 source srcSnaps db := by
  unfold import_patches_from_document
  apply importSaveLoop_skip_all
  intro sp hsp
  have hsp' : sp ∈ source.filter (fun p => decide (p.kind = "Save")) :=
    ((List.perm_insertionSort _ _).mem_iff).mp hsp
  rw [List.mem_filter] at hsp'
  have hsave : sp.kind = "Save" := by simpa using hsp'.2
  obtain ⟨u, hu⟩ := Option.isSome_iff_exists.mp (h sp hsp'.1 hsave)
  exact ⟨u, hu, importSaveLoop_present fresh1 srcSnaps _ 0 db sp u hsp hu⟩

/-- Witness for `c7_import_idempotent`: a one-Save-patch source carrying
uuid `u-1` imported twice into the empty target under two independent
fresh-uuid supplies. -/
theorem c7_import_idempotent_witness :
    import_patches_from_document freshU2 srcWithUuid []
        (import_patches_from_document freshU1 srcWithUuid [] emptyDb)
      = import_patches_from_document freshU1 srcWithUuid [] emptyDb :=
  c7_import_idempotent srcWithUuid [] emptyDb freshU1 freshU2 (by decide)

end Korppi

